import Mathlib

/-!
Verification of the client-side reconciliation layer of a discord.js fork:
the partial-patch merge in `ClientUser._patch`, the token side effects of
`_patch` and `edit`, the invite-acceptance request/event correlation in
`ClientUser.acceptInvite`, the READY shard handler, and the
`UserSettingsUpdateAction` notification handler.

JavaScript dynamic values are embedded as the inductive `JSVal`
(undefined, null, booleans, numbers, strings); payload objects are
records of `Option JSVal` fields, where `none` models a key that is
physically absent from the object and `some v` models a key present with
value `v` (possibly `JSVal.null` or `JSVal.undefined`).
-/

/-- A JavaScript value, as far as the reconciliation layer inspects them:
`undefined`, `null`, booleans, (integer) numbers and strings. -/
inductive JSVal where
  | undefined
  | null
  | jbool (b : Bool)
  | jnum (n : Int)
  | jstr (s : String)
deriving DecidableEq, Repr

namespace JSVal

/-- JavaScript truthiness: `undefined`, `null`, `false`, `0` and the empty
string are falsy, everything else is truthy. -/
def truthy : JSVal → Bool
  | .undefined => false
  | .null => false
  | .jbool b => b
  | .jnum n => n != 0
  | .jstr s => s != ""

/-- `typeof v === 'boolean'`. -/
def isBool : JSVal → Bool
  | .jbool _ => true
  | _ => false

/-- `typeof v === 'string'`. -/
def isString : JSVal → Bool
  | .jstr _ => true
  | _ => false

end JSVal

/-- Reading a possibly-absent object property: an absent key reads as
`undefined` (`data.token` when no `token` key exists). -/
def jsGet (o : Option JSVal) : JSVal := o.getD .undefined

/-- The `ClientUser` entity fields written by `ClientUser._patch`
(`src/structures/ClientUser.js`).  `id` comes from the base `User`
constructor and never changes; the four patchable fields start out as
`undefined` (JavaScript fields not yet assigned). -/
@[ext]
structure ClientUser where
  id : String
  verified : JSVal := .undefined
  mfaEnabled : JSVal := .undefined
  email : JSVal := .undefined
  premium : JSVal := .undefined
deriving DecidableEq, Repr

/-- A partial-update payload for `ClientUser._patch`: each field is `none`
when the key is absent from the payload object (`'verified' in data` is
false) and `some v` when present with value `v`. -/
structure PatchPayload where
  verified : Option JSVal := none
  mfa_enabled : Option JSVal := none
  email : Option JSVal := none
  premium : Option JSVal := none
  token : Option JSVal := none
deriving DecidableEq, Repr

/-- Result of one `_patch` call: the updated entity and the (possibly
refreshed) process-wide `client.token` credential. -/
@[ext]
structure PatchResult where
  user : ClientUser
  token : JSVal
deriving DecidableEq, Repr

/-- Shallow embedding of `ClientUser._patch(data)`
(`src/structures/ClientUser.js`, lines 25-63), together with the
`client.token` side effect on the last line.  Field by field:
* `verified`: assigned raw whenever the key is present (no coercion);
* `mfa_enabled`: boolean-or-null coercion when present; when absent and
  the current field is still `undefined`, initialised to `null`;
* `email`: string-or-null coercion when present;
* `premium`: boolean-or-null coercion when present;
* `token`: `if (data.token) this.client.token = data.token` — a
  truthiness test on the payload value, not a key-presence test.
The base-class `super._patch(data)` call touches only fields of `User`
that are disjoint from these and is therefore not part of this record. -/
def ClientUser._patch (u : ClientUser) (clientToken : JSVal) (d : PatchPayload) :
    PatchResult :=
  let verified : JSVal :=
    match d.verified with
    | some v => v
    | none => u.verified
  let mfaEnabled : JSVal :=
    match d.mfa_enabled with
    | some v => if v.isBool then v else .null
    | none => if u.mfaEnabled = .undefined then .null else u.mfaEnabled
  let email : JSVal :=
    match d.email with
    | some v => if v.isString then v else .null
    | none => u.email
  let premium : JSVal :=
    match d.premium with
    | some v => if v.isBool then v else .null
    | none => u.premium
  let token : JSVal :=
    if (jsGet d.token).truthy then jsGet d.token else clientToken
  { user := { u with verified, mfaEnabled, email, premium }, token }

/-- Payload overlay used by the patch-composition law: a field of the
combined payload is `p2`'s when present there, otherwise `p1`'s
(P2's present fields dominate P1's on overlap). -/
def PatchPayload.combine (p1 p2 : PatchPayload) : PatchPayload where
  verified := p2.verified.orElse fun _ => p1.verified
  mfa_enabled := p2.mfa_enabled.orElse fun _ => p1.mfa_enabled
  email := p2.email.orElse fun _ => p1.email
  premium := p2.premium.orElse fun _ => p1.premium
  token := p2.token.orElse fun _ => p1.token

/-- A direct response body from `PATCH /users/@me`, as consumed by
`ClientUser.edit`; only the `token` property is read directly by `edit`
(the rest is forwarded to `client.actions.UserUpdate.handle`). -/
structure EditResponse where
  token : Option JSVal := none
deriving DecidableEq, Repr

/-- The `client.token` effect of the `.then` callback of
`ClientUser.edit` (`src/structures/ClientUser.js`, line 117):
`this.client.token = newData.token` — an unconditional assignment of the
response's `token` property, which reads as `undefined` when the
response carries no such key.  The prior credential is ignored. -/
def ClientUser.editTokenEffect (_priorToken : JSVal) (newData : EditResponse) : JSVal :=
  jsGet newData.token

/-! ## `acceptInvite`: request/event correlation -/

/-- A guild as seen by the `guildCreate` handler inside `acceptInvite`:
only its `id` is inspected. -/
structure Guild where
  id : String
deriving DecidableEq, Repr

/-- The state of the promise returned by `acceptInvite`.  `settle` below
encodes the JavaScript guarantee that `resolve`/`reject` after the first
settlement are no-ops. -/
inductive PromiseState where
  | pending
  | resolved (g : Guild)
  | rejected (msg : String)
deriving DecidableEq, Repr

/-- Settling a promise: only a pending promise takes the new state. -/
def PromiseState.settle (p q : PromiseState) : PromiseState :=
  match p with
  | .pending => q
  | _ => p

/-- The mutable pieces touched by `acceptInvite` after its direct request
succeeded: whether the `guildCreate` handler is still registered on the
client emitter, the promise, how many times `client.removeListener` has
been invoked, and whether the 120-second timer is still pending. -/
structure CorrState where
  subscribed : Bool
  promise : PromiseState
  removeCalls : Nat
  timerPending : Bool
deriving DecidableEq, Repr

/-- One event-loop occurrence observable by `acceptInvite`'s closures:
a `guildCreate` emission, or the firing of the `setTimeout` timer. -/
inductive LoopEvent where
  | guildCreate (g : Guild)
  | timerFire
deriving DecidableEq, Repr

/-- One event-loop step of the closures installed by `acceptInvite`
(`src/structures/ClientUser.js`, lines 96-106).  A `guildCreate` event
runs the handler only while it is registered; on an id match it resolves
the promise and calls `removeListener`.  The timer callback always calls
`removeListener` (even if the handler already removed itself) and then
rejects; nothing in the source ever cancels the timer. -/
def corrStep (resId : String) (s : CorrState) : LoopEvent → CorrState
  | .guildCreate g =>
    if s.subscribed ∧ g.id = resId then
      { s with
        promise := s.promise.settle (.resolved g)
        removeCalls := s.removeCalls + 1
        subscribed := false }
    else s
  | .timerFire =>
    if s.timerPending then
      { s with
        removeCalls := s.removeCalls + 1
        subscribed := false
        promise := s.promise.settle (.rejected "Accepting invite timed out")
        timerPending := false }
    else s

/-- Running `acceptInvite` against the outcome of the direct
`client.api.invite(code).post()` request and a schedule of event-loop
occurrences.  When the direct request rejects, the `.catch` branch
rejects the promise with a fresh `Error('Invite code is not valid')`
(discarding the transport's own reason) and never subscribes nor starts
a timer; when it fulfils with `res`, the handler and the timer are
installed and the schedule is consumed in order. -/
def runAccept (direct : Except String String) (sched : List LoopEvent) : CorrState :=
  match direct with
  | .error _ =>
    { subscribed := false
      promise := .rejected "Invite code is not valid"
      removeCalls := 0
      timerPending := false }
  | .ok resId =>
    sched.foldl (corrStep resId)
      { subscribed := true, promise := .pending, removeCalls := 0, timerPending := true }

/-- A `guildCreate` emission stamped with its arrival time in
milliseconds after the direct response. -/
structure TimedGuild where
  time : Nat
  guild : Guild
deriving DecidableEq, Repr

/-- The hard-coded `120e3` millisecond deadline of `acceptInvite`. -/
def acceptInviteTimeoutMs : Nat := 120000

/-- The event-loop schedule induced by a chronological stream of
`guildCreate` emissions: those arriving strictly before the deadline run
before the timer callback, the rest after it. -/
def scheduleOf (events : List TimedGuild) : List LoopEvent :=
  ((events.filter fun e => e.time < acceptInviteTimeoutMs).map fun e => .guildCreate e.guild)
    ++ [.timerFire]
    ++ ((events.filter fun e => ¬ e.time < acceptInviteTimeoutMs).map fun e => .guildCreate e.guild)

/-- `acceptInvite` as a function of the direct-request outcome and the
timed `guildCreate` stream. -/
def acceptInvite (direct : Except String String) (events : List TimedGuild) : CorrState :=
  runAccept direct (scheduleOf events)

/-- The first `guildCreate` emission arriving before the deadline whose
guild id equals the direct response's id. -/
def firstMatch (resId : String) (events : List TimedGuild) : Option TimedGuild :=
  (events.filter fun e => e.time < acceptInviteTimeoutMs).find? fun e => e.guild.id = resId

/-- The argument of `acceptInvite(code)`: either a primitive value or an
invite-like object carrying an `id` property.  Property access `code.id`
on a primitive string/number/boolean yields `undefined` (on `null` or
`undefined` it would throw, which no claim exercises; it is modelled as
`undefined` too). -/
inductive AcceptArg where
  | prim (v : JSVal)
  | invite (id : JSVal) (code : String)
deriving DecidableEq, Repr

/-- The value of the `id` property of an `acceptInvite` argument. -/
def AcceptArg.idProp : AcceptArg → JSVal
  | .prim _ => .undefined
  | .invite id _ => id

/-- `if (code.id) code = code.id;` (`src/structures/ClientUser.js`,
line 90): the argument is replaced by its `id` property when that
property is truthy. -/
def normalizeInvite (a : AcceptArg) : AcceptArg :=
  if a.idProp.truthy then .prim a.idProp else a

/-- `acceptInvite` including the argument normalization: the direct
request is issued for the normalized code (`api` abstracts the
transport, mapping the requested code to the direct outcome). -/
def acceptInviteArg (a : AcceptArg) (api : AcceptArg → Except String String)
    (events : List TimedGuild) : CorrState :=
  acceptInvite (api (normalizeInvite a)) events

/-! ## The READY shard handler -/

/-- The `user` object nested in a READY payload; the base `User`
constructor (outside the provided sources) stores its `id` on the new
`ClientUser`, which the handler then uses as the cache key. -/
structure UserData where
  id : String
deriving DecidableEq, Repr

/-- A guild entry of a READY payload: its id and the `shardID` property,
which the handler overwrites before insertion (`guild.shardID = shard.id`). -/
structure ReadyGuild where
  id : String
  shardID : Option Nat := none
deriving DecidableEq, Repr

/-- A READY payload (`d` of the gateway packet): the `user` object, the
guild list, the private-channel list, and the top-level patchable fields
that `client.user._patch(data)` consumes. -/
structure ReadyData where
  user : UserData
  guilds : List ReadyGuild
  private_channels : List String
  fields : PatchPayload := {}
deriving DecidableEq, Repr

/-- The shard argument of the handler; only `shard.id` is read. -/
structure ShardHandle where
  id : Nat
deriving DecidableEq, Repr

/-- `new ClientUser(client, data)`: the base `User` constructor (outside
the provided sources) records the identifier of `data.user`; the four
patchable fields start out unassigned (`undefined`). -/
def mkClientUser (data : ReadyData) : ClientUser :=
  { id := data.user.id }

/-- One observable effect of the READY handler, in execution order. -/
inductive ReadyEffect where
  | patchUser (p : PatchPayload)
  | createUser (u : ClientUser)
  | cacheUser (key : String) (u : ClientUser)
  | addGuild (g : ReadyGuild)
  | addChannel (c : String)
  | checkReady
deriving DecidableEq, Repr

/-- Shallow embedding of the READY packet handler
(`src/unnamed/part_000`) as its ordered effect trace: patch the existing
client user, or create one and insert it under its id into
`client.users.cache`; then add every guild after stamping
`guild.shardID = shard.id`; then add every private channel; finally call
`shard.checkReady()`.  `hasUser` is whether `client.user` was already
set when the packet arrived. -/
def readyHandle (hasUser : Bool) (data : ReadyData) (shard : ShardHandle) :
    List ReadyEffect :=
  (if hasUser then [.patchUser data.fields]
   else [.createUser (mkClientUser data),
         .cacheUser (mkClientUser data).id (mkClientUser data)])
    ++ (data.guilds.map fun g => .addGuild { g with shardID := some shard.id })
    ++ (data.private_channels.map fun c => .addChannel c)
    ++ [.checkReady]

/-- The guild inserted by an `addGuild` effect, if any. -/
def ReadyEffect.guildOf : ReadyEffect → Option ReadyGuild
  | .addGuild g => some g
  | _ => none

/-- The channel inserted by an `addChannel` effect, if any. -/
def ReadyEffect.channelOf : ReadyEffect → Option String
  | .addChannel c => some c
  | _ => none

/-- Whether an effect is the `shard.checkReady()` call. -/
def ReadyEffect.isCheckReady : ReadyEffect → Bool
  | .checkReady => true
  | _ => false

/-! ## The unconditional-notify settings action -/

/-- An emission on the client notification bus: the event name and its
payload. -/
structure Emission where
  name : String
  payload : JSVal
deriving DecidableEq, Repr

/-- `Constants.Events.USER_SETTINGS_UPDATE`. -/
def USER_SETTINGS_UPDATE : String := "userSettingsUpdate"

/-- The result descriptor returned by the settings handler. -/
structure SettingsResult where
  settings : JSVal
deriving DecidableEq, Repr

/-- Shallow embedding of `UserSettingsUpdateAction.handle(settings)`
(`src/client/actions/UserSettingsUpdate.js`): unconditionally emit one
`userSettingsUpdate` notification carrying the payload, and return
`{ settings }`.  The bus is threaded as the list of emissions so far. -/
def UserSettingsUpdateAction.handle (bus : List Emission) (settings : JSVal) :
    List Emission × SettingsResult :=
  (bus ++ [{ name := USER_SETTINGS_UPDATE, payload := settings }], { settings })

/-- Dispatching a stream of settings-update events through the action in
order, starting from a bus state. -/
def dispatchSettings (bus : List Emission) : List JSVal → List Emission
  | [] => bus
  | p :: rest => dispatchSettings (UserSettingsUpdateAction.handle bus p).1 rest

/-- A payload whose `token` field, if present, is truthy.  The patch
composition law holds for the `client.token` side effect exactly when
the dominating payload satisfies this (a present falsy token is dropped
by the truthiness test, resurrecting the pre-`P1` credential). -/
def tokenComposable (p : PatchPayload) : Bool :=
  match p.token with
  | some v => v.truthy
  | none => true

/-- A transport that answers every invite request with the same direct
outcome; used to instantiate `acceptInviteArg` at concrete inputs. -/
def constApi (r : Except String String) : AcceptArg → Except String String :=
  fun _ => r

/-! ## Helper lemmas -/

lemma corrStep_guild_of_unsub (resId : String) (s : CorrState) (g : Guild)
    (h : s.subscribed = false) : corrStep resId s (.guildCreate g) = s := by
  simp [corrStep, h]

lemma foldl_guilds_of_unsub (resId : String) (s : CorrState) (h : s.subscribed = false)
    (es : List TimedGuild) :
    (es.map fun e => LoopEvent.guildCreate e.guild).foldl (corrStep resId) s = s := by
  induction es with
  | nil => rfl
  | cons e rest ih =>
    rw [List.map_cons, List.foldl_cons, corrStep_guild_of_unsub resId s e.guild h, ih]

lemma foldl_guilds_of_init (resId : String) (es : List TimedGuild) :
    (es.map fun e => LoopEvent.guildCreate e.guild).foldl (corrStep resId)
      { subscribed := true, promise := .pending, removeCalls := 0, timerPending := true } =
      match es.find? (fun e => e.guild.id = resId) with
      | some e =>
        { subscribed := false, promise := .resolved e.guild, removeCalls := 1,
          timerPending := true }
      | none =>
        { subscribed := true, promise := .pending, removeCalls := 0, timerPending := true } := by
  induction es with
  | nil => rfl
  | cons e rest ih =>
    by_cases h : e.guild.id = resId
    · rw [List.map_cons, List.foldl_cons]
      have h1 : corrStep resId
          { subscribed := true, promise := .pending, removeCalls := 0, timerPending := true }
          (.guildCreate e.guild) =
          { subscribed := false, promise := .resolved e.guild, removeCalls := 1,
            timerPending := true } := by
        simp [corrStep, h, PromiseState.settle]
      rw [h1, foldl_guilds_of_unsub resId _ rfl rest]
      simp [List.find?_cons_of_pos, h]
    · rw [List.map_cons, List.foldl_cons]
      have h1 : corrStep resId
          { subscribed := true, promise := .pending, removeCalls := 0, timerPending := true }
          (.guildCreate e.guild) =
          { subscribed := true, promise := .pending, removeCalls := 0, timerPending := true } := by
        simp [corrStep, h]
      rw [h1, ih]
      simp [List.find?_cons_of_neg, h]

/-- Full characterization of `acceptInvite` after a fulfilled direct
request: the promise resolves with the first matching pre-deadline guild
and `removeListener` runs twice (handler, then uncancelled timer), or
times out with a single `removeListener` call. -/
lemma acceptInvite_ok_eq (resId : String) (events : List TimedGuild) :
    acceptInvite (.ok resId) events =
      match firstMatch resId events with
      | some e =>
        { subscribed := false, promise := .resolved e.guild, removeCalls := 2,
          timerPending := false }
      | none =>
        { subscribed := false, promise := .rejected "Accepting invite timed out",
          removeCalls := 1, timerPending := false } := by
  simp only [acceptInvite, runAccept, scheduleOf]
  rw [List.foldl_append, List.foldl_append, foldl_guilds_of_init]
  cases hfm : (events.filter fun e => e.time < acceptInviteTimeoutMs).find?
      (fun e => e.guild.id = resId) with
  | some e =>
    rw [List.foldl_cons, List.foldl_nil]
    have h1 : corrStep resId
        { subscribed := false, promise := .resolved e.guild, removeCalls := 1,
          timerPending := true } .timerFire =
        { subscribed := false, promise := .resolved e.guild, removeCalls := 2,
          timerPending := false } := by
      simp [corrStep, PromiseState.settle]
    rw [h1, foldl_guilds_of_unsub resId _ rfl]
    simp [firstMatch, hfm]
  | none =>
    rw [List.foldl_cons, List.foldl_nil]
    have h1 : corrStep resId
        { subscribed := true, promise := .pending, removeCalls := 0, timerPending := true }
        .timerFire =
        { subscribed := false, promise := .rejected "Accepting invite timed out",
          removeCalls := 1, timerPending := false } := by
      simp [corrStep, PromiseState.settle]
    rw [h1, foldl_guilds_of_unsub resId _ rfl]
    simp [firstMatch, hfm]

lemma filterMap_guildOf_addGuilds (f : ReadyGuild → ReadyGuild) (gs : List ReadyGuild) :
    (gs.map fun g => ReadyEffect.addGuild (f g)).filterMap ReadyEffect.guildOf = gs.map f := by
  induction gs with
  | nil => rfl
  | cons g gs ih => simp [List.filterMap_cons, ReadyEffect.guildOf, ih]

lemma filterMap_guildOf_addChannels (cs : List String) :
    (cs.map fun c => ReadyEffect.addChannel c).filterMap ReadyEffect.guildOf = [] := by
  induction cs with
  | nil => rfl
  | cons c cs ih => simp [List.filterMap_cons, ReadyEffect.guildOf, ih]

lemma filterMap_channelOf_addGuilds (f : ReadyGuild → ReadyGuild) (gs : List ReadyGuild) :
    (gs.map fun g => ReadyEffect.addGuild (f g)).filterMap ReadyEffect.channelOf = [] := by
  induction gs with
  | nil => rfl
  | cons g gs ih => simp [List.filterMap_cons, ReadyEffect.channelOf, ih]

lemma filterMap_channelOf_addChannels (cs : List String) :
    (cs.map fun c => ReadyEffect.addChannel c).filterMap ReadyEffect.channelOf = cs := by
  induction cs with
  | nil => rfl
  | cons c cs ih => simp [List.filterMap_cons, ReadyEffect.channelOf, ih]

lemma countP_isCheckReady_addGuilds (f : ReadyGuild → ReadyGuild) (gs : List ReadyGuild) :
    (gs.map fun g => ReadyEffect.addGuild (f g)).countP ReadyEffect.isCheckReady = 0 := by
  induction gs with
  | nil => rfl
  | cons g gs ih => simp [List.countP_cons, ReadyEffect.isCheckReady, ih]

lemma countP_isCheckReady_addChannels (cs : List String) :
    (cs.map fun c => ReadyEffect.addChannel c).countP ReadyEffect.isCheckReady = 0 := by
  induction cs with
  | nil => rfl
  | cons c cs ih => simp [List.countP_cons, ReadyEffect.isCheckReady, ih]

lemma dispatchSettings_eq (ps : List JSVal) :
    ∀ bus : List Emission,
      dispatchSettings bus ps
        = bus ++ ps.map fun q => { name := USER_SETTINGS_UPDATE, payload := q } := by
  induction ps with
  | nil => intro bus; simp [dispatchSettings]
  | cons p rest ih =>
    intro bus
    rw [dispatchSettings, ih]
    simp [UserSettingsUpdateAction.handle]

/-! ## Claim theorems -/

/-- C1 (amended): `verified`, `email` and `premium` keep their prior value
when their key is absent from the payload, and a field explicitly present
with value `null` becomes `null`; but `mfaEnabled` is not always left
unchanged by an absent key — when its prior value is still `undefined`,
the `else if` branch of `_patch` initialises it to `null`. -/
theorem clientUser_patch_frame_and_null (u : ClientUser) (tok : JSVal) (d : PatchPayload) :
    ((u._patch tok { d with verified := none }).user.verified = u.verified)
  ∧ ((u._patch tok { d with email := none }).user.email = u.email)
  ∧ ((u._patch tok { d with premium := none }).user.premium = u.premium)
  ∧ ((u._patch tok { d with mfa_enabled := none }).user.mfaEnabled =
      if u.mfaEnabled = .undefined then .null else u.mfaEnabled)
  ∧ ((u._patch tok { d with verified := some .null }).user.verified = .null)
  ∧ ((u._patch tok { d with mfa_enabled := some .null }).user.mfaEnabled = .null)
  ∧ ((u._patch tok { d with email := some .null }).user.email = .null)
  ∧ ((u._patch tok { d with premium := some .null }).user.premium = .null) :=
  ⟨rfl, rfl, rfl, rfl, rfl, rfl, rfl, rfl⟩

/-- C1 counterexample: with the empty payload (every key absent), a
`ClientUser` whose `mfaEnabled` is still `undefined` does not keep that
prior value — `_patch` rewrites it to `null`. -/
theorem clientUser_patch_mfa_absent_cex :
    (({} : PatchPayload).mfa_enabled = none)
  ∧ (({ id := "0" } : ClientUser).mfaEnabled = JSVal.undefined)
  ∧ ((ClientUser._patch { id := "0" } .null {}).user.mfaEnabled ≠
      ({ id := "0" } : ClientUser).mfaEnabled) := by decide

/-- C2 (amended): when present, `mfa_enabled` undergoes the
boolean-or-null coercion, but `verified` does not — a present `verified`
key is assigned raw, whatever its value. -/
theorem clientUser_patch_flag_coercion (u : ClientUser) (tok : JSVal) (d : PatchPayload)
    (v : JSVal) :
    ((u._patch tok { d with mfa_enabled := some v }).user.mfaEnabled =
      if v.isBool then v else .null)
  ∧ ((u._patch tok { d with verified := some v }).user.verified = v) :=
  ⟨rfl, rfl⟩

/-- C2 counterexample: a non-boolean `verified` payload value is stored
as-is instead of being coerced to the neutral `null` default. -/
theorem clientUser_patch_verified_no_coercion_cex :
    ((JSVal.jstr "yes").isBool = false)
  ∧ ((ClientUser._patch { id := "0" } .null { verified := some (.jstr "yes") }).user.verified
      = .jstr "yes")
  ∧ (JSVal.jstr "yes" ≠ JSVal.null) := by decide

/-- C6 (amended): `_patch` refreshes `client.token` if and only if the
payload carries a truthy `token` value (`if (data.token)` is a
truthiness test, not a key-presence test); an absent key leaves the
credential unchanged, and the `token` field never influences the entity
itself. -/
theorem clientUser_patch_token_truthy (u : ClientUser) (tok : JSVal) (d : PatchPayload)
    (v : JSVal) :
    ((u._patch tok { d with token := none }).token = tok)
  ∧ ((u._patch tok { d with token := some v }).token = if v.truthy then v else tok)
  ∧ ((u._patch tok d).user = (u._patch tok { d with token := none }).user) :=
  ⟨rfl, rfl, rfl⟩

/-- C6 counterexample: a payload that carries the `token` key with the
falsy value `null` does not refresh the credential, contradicting
"updates if and only if the payload carries the field". -/
theorem clientUser_patch_token_falsy_cex :
    (({ token := some .null } : PatchPayload).token = some JSVal.null)
  ∧ ((ClientUser._patch { id := "0" } (.jstr "old") { token := some .null }).token
      = .jstr "old")
  ∧ (JSVal.jstr "old" ≠ JSVal.null) := by decide

/-- C9: `edit` overwrites `client.token` unconditionally with the
response's `token` property — independent of the prior credential, and
`undefined` when the response carries no `token` key — whereas the
`_patch` path leaves the credential unchanged when the key is absent. -/
theorem clientUser_edit_token_overwrite (prior prior2 : JSVal) (newData : EditResponse)
    (v : JSVal) (u : ClientUser) (tok : JSVal) (d : PatchPayload) :
    (ClientUser.editTokenEffect prior newData = jsGet newData.token)
  ∧ (ClientUser.editTokenEffect prior { token := some v } = v)
  ∧ (ClientUser.editTokenEffect prior { token := none } = .undefined)
  ∧ (ClientUser.editTokenEffect prior newData = ClientUser.editTokenEffect prior2 newData)
  ∧ ((u._patch tok { d with token := none }).token = tok) :=
  ⟨rfl, rfl, rfl, rfl, rfl⟩

/-- C3 (amended): the three race outcomes of `acceptInvite`.  A matching
`guildCreate` before the 120-second deadline resolves the promise with
that guild; no match before the deadline rejects with the timeout error;
a failed direct request rejects — regardless of later events — with the
fixed invalid-invite error, which is distinct from the timeout error but
is not the transport's own failure reason. -/
theorem acceptInvite_race_outcomes (resId msg : String) (events : List TimedGuild) :
    (∀ e, firstMatch resId events = some e →
      (acceptInvite (.ok resId) events).promise = .resolved e.guild)
  ∧ (firstMatch resId events = none →
      (acceptInvite (.ok resId) events).promise = .rejected "Accepting invite timed out")
  ∧ ((acceptInvite (.error msg) events).promise = .rejected "Invite code is not valid")
  ∧ (PromiseState.rejected "Invite code is not valid" ≠
      PromiseState.rejected "Accepting invite timed out") := by
  refine ⟨?_, ?_, rfl, by decide⟩
  · intro e he
    rw [acceptInvite_ok_eq, he]
  · intro he
    rw [acceptInvite_ok_eq, he]

/-- C3 witness: both fulfilled-request races at concrete inputs. -/
theorem acceptInvite_race_outcomes_witness :
    ((acceptInvite (.ok "g1") [{ time := 10, guild := { id := "g1" } }]).promise
      = .resolved { id := "g1" })
  ∧ ((acceptInvite (.ok "g1") []).promise = .rejected "Accepting invite timed out") :=
  ⟨(acceptInvite_race_outcomes "g1" "x" [{ time := 10, guild := { id := "g1" } }]).1
      { time := 10, guild := { id := "g1" } } (by decide),
   (acceptInvite_race_outcomes "g1" "x" []).2.1 (by decide)⟩

/-- C3 counterexample: when the direct request fails with a transport
reason, the promise is rejected with the fixed string
`Invite code is not valid`, not with that failure. -/
theorem acceptInvite_error_discards_reason_cex :
    ((acceptInvite (.error "upstream 500") []).promise = .rejected "Invite code is not valid")
  ∧ ((acceptInvite (.error "upstream 500") []).promise ≠ .rejected "upstream 500") := by
  exact ⟨rfl, by decide⟩

/-- C4 (amended): on every exit path the `guildCreate` listener ends
unregistered (no leak) and the promise settles in exactly one terminal
state; but on the match path the pending timer is NOT cancelled — it
still fires, so `removeListener` is invoked twice there (the second call
a no-op on the settled promise and the already-removed listener), once
on the timeout path, and zero times on the direct-failure path, where no
subscription was ever created. -/
theorem acceptInvite_cleanup_amended (direct : Except String String)
    (events : List TimedGuild) :
    ((acceptInvite direct events).subscribed = false)
  ∧ ((acceptInvite direct events).promise ≠ .pending)
  ∧ ((acceptInvite direct events).timerPending = false)
  ∧ (∀ resId e, direct = .ok resId → firstMatch resId events = some e →
      (acceptInvite direct events).removeCalls = 2
      ∧ (acceptInvite direct events).promise = .resolved e.guild)
  ∧ (∀ resId, direct = .ok resId → firstMatch resId events = none →
      (acceptInvite direct events).removeCalls = 1)
  ∧ (∀ m, direct = .error m → (acceptInvite direct events).removeCalls = 0) := by
  cases direct with
  | error m =>
    refine ⟨rfl, by simp [acceptInvite, runAccept], rfl, ?_, ?_, ?_⟩
    · intro resId e hok
      exact absurd hok (by simp)
    · intro resId hok
      exact absurd hok (by simp)
    · intro m2 _
      rfl
  | ok resId0 =>
    have h := acceptInvite_ok_eq resId0 events
    cases hm : firstMatch resId0 events with
    | some e0 =>
      rw [hm] at h
      refine ⟨by rw [h], by rw [h]; simp, by rw [h], ?_, ?_, ?_⟩
      · intro resId e hok hm2
        have hres : resId = resId0 := by
          cases hok
          rfl
        subst hres
        rw [hm] at hm2
        cases hm2
        exact ⟨by rw [h], by rw [h]⟩
      · intro resId hok hm2
        have hres : resId = resId0 := by
          cases hok
          rfl
        subst hres
        rw [hm] at hm2
        cases hm2
      · intro m hcontra
        exact absurd hcontra (by simp)
    | none =>
      rw [hm] at h
      refine ⟨by rw [h], by rw [h]; simp, by rw [h], ?_, ?_, ?_⟩
      · intro resId e hok hm2
        have hres : resId = resId0 := by
          cases hok
          rfl
        subst hres
        rw [hm] at hm2
        cases hm2
      · intro resId hok hm2
        rw [h]
      · intro m hcontra
        exact absurd hcontra (by simp)

/-- C4 witness: the match path at a concrete input — promise resolved,
listener removed, two `removeListener` invocations. -/
theorem acceptInvite_cleanup_amended_witness :
    ((acceptInvite (.ok "g1") [{ time := 10, guild := { id := "g1" } }]).removeCalls = 2)
  ∧ ((acceptInvite (.ok "g1") [{ time := 10, guild := { id := "g1" } }]).promise
      = .resolved { id := "g1" }) :=
  (acceptInvite_cleanup_amended (.ok "g1")
      [{ time := 10, guild := { id := "g1" } }]).2.2.2.1 "g1"
    { time := 10, guild := { id := "g1" } } rfl (by decide)

/-- C4 counterexample: a matching event at 10ms (well before the
120-second deadline) resolves the promise, yet `removeListener` is
invoked twice — the pending timer is not cancelled and still acts when
it fires, refuting "removed exactly once, never removed twice" and
"the pending timeout timer is cancelled so it performs no further
action". -/
theorem acceptInvite_double_removeListener_cex :
    (10 < acceptInviteTimeoutMs)
  ∧ ((acceptInvite (.ok "g1") [{ time := 10, guild := { id := "g1" } }]).promise
      = .resolved { id := "g1" })
  ∧ ((acceptInvite (.ok "g1") [{ time := 10, guild := { id := "g1" } }]).removeCalls = 2) := by
  decide

/-- C10: `acceptInvite(arg)` for an argument with a truthy `id` property
is observationally identical to `acceptInvite(arg.id)` — the argument is
normalized to its `id` before the request is issued, and a primitive's
own `id` property is `undefined`, so no second normalization occurs. -/
theorem acceptInvite_normalizes_id (a : AcceptArg) (api : AcceptArg → Except String String)
    (events : List TimedGuild) (h : a.idProp.truthy = true) :
    acceptInviteArg a api events = acceptInviteArg (.prim a.idProp) api events := by
  have hn : normalizeInvite a = AcceptArg.prim a.idProp := by
    simp [normalizeInvite, h]
  have hn2 : normalizeInvite (.prim a.idProp) = AcceptArg.prim a.idProp := by
    simp [normalizeInvite, AcceptArg.idProp, JSVal.truthy]
  unfold acceptInviteArg
  rw [hn, hn2]

/-- C10 witness: passing an invite object with id `"abc"` and passing the
primitive `"abc"` give the same run at a concrete transport. -/
theorem acceptInvite_normalizes_id_witness :
    ((AcceptArg.invite (.jstr "abc") "raw").idProp.truthy = true)
  ∧ (acceptInviteArg (.invite (.jstr "abc") "raw") (constApi (.ok "g")) []
      = acceptInviteArg (.prim (.jstr "abc")) (constApi (.ok "g")) []) :=
  ⟨by decide, acceptInvite_normalizes_id (.invite (.jstr "abc") "raw") (constApi (.ok "g")) []
      (by decide)⟩

lemma patch_user_id (u : ClientUser) (tok : JSVal) (d : PatchPayload) :
    (u._patch tok d).user.id = u.id := rfl

lemma patch_user_verified (u : ClientUser) (tok : JSVal) (d : PatchPayload) :
    (u._patch tok d).user.verified =
      match d.verified with
      | some v => v
      | none => u.verified := rfl

lemma patch_user_mfa (u : ClientUser) (tok : JSVal) (d : PatchPayload) :
    (u._patch tok d).user.mfaEnabled =
      match d.mfa_enabled with
      | some v => if v.isBool then v else .null
      | none => if u.mfaEnabled = .undefined then .null else u.mfaEnabled := rfl

lemma patch_user_email (u : ClientUser) (tok : JSVal) (d : PatchPayload) :
    (u._patch tok d).user.email =
      match d.email with
      | some v => if v.isString then v else .null
      | none => u.email := rfl

lemma patch_user_premium (u : ClientUser) (tok : JSVal) (d : PatchPayload) :
    (u._patch tok d).user.premium =
      match d.premium with
      | some v => if v.isBool then v else .null
      | none => u.premium := rfl

lemma patch_token (u : ClientUser) (tok : JSVal) (d : PatchPayload) :
    (u._patch tok d).token =
      if (jsGet d.token).truthy then jsGet d.token else tok := rfl

lemma combine_verified (p1 p2 : PatchPayload) :
    (p1.combine p2).verified = p2.verified.orElse fun _ => p1.verified := rfl

lemma combine_mfa (p1 p2 : PatchPayload) :
    (p1.combine p2).mfa_enabled = p2.mfa_enabled.orElse fun _ => p1.mfa_enabled := rfl

lemma combine_email (p1 p2 : PatchPayload) :
    (p1.combine p2).email = p2.email.orElse fun _ => p1.email := rfl

lemma combine_premium (p1 p2 : PatchPayload) :
    (p1.combine p2).premium = p2.premium.orElse fun _ => p1.premium := rfl

lemma combine_token (p1 p2 : PatchPayload) :
    (p1.combine p2).token = p2.token.orElse fun _ => p1.token := rfl

/-- C8 (amended): the patch composition law
`merge(merge(E,P1),P2) = merge(E, combine(P1,P2))` holds unconditionally
for the entity fields (`verified`, `mfaEnabled`, `email`, `premium`),
and extends to the `client.token` side effect provided `P2` does not
carry a present-but-falsy `token` value. -/
theorem clientUser_patch_composition (u : ClientUser) (tok : JSVal) (p1 p2 : PatchPayload) :
    (((u._patch tok p1).user._patch (u._patch tok p1).token p2).user
      = (u._patch tok (p1.combine p2)).user)
  ∧ (tokenComposable p2 = true →
      ((u._patch tok p1).user._patch (u._patch tok p1).token p2)
        = u._patch tok (p1.combine p2)) := by
  have huser : ((u._patch tok p1).user._patch (u._patch tok p1).token p2).user
      = (u._patch tok (p1.combine p2)).user := by
    apply ClientUser.ext
    · simp only [patch_user_id]
    · simp only [patch_user_verified, combine_verified]
      cases p2.verified with
      | some v => rfl
      | none => cases p1.verified <;> rfl
    · simp only [patch_user_mfa, combine_mfa]
      cases p2.mfa_enabled with
      | some v => rfl
      | none =>
        cases p1.mfa_enabled with
        | some v => cases v <;> simp [JSVal.isBool]
        | none => by_cases h : u.mfaEnabled = JSVal.undefined <;> simp [h]
    · simp only [patch_user_email, combine_email]
      cases p2.email with
      | some v => rfl
      | none => cases p1.email <;> rfl
    · simp only [patch_user_premium, combine_premium]
      cases p2.premium with
      | some v => rfl
      | none => cases p1.premium <;> rfl
  refine ⟨huser, ?_⟩
  intro h
  apply PatchResult.ext huser
  simp only [patch_token, combine_token]
  unfold tokenComposable at h
  cases ht2 : p2.token with
  | none => simp [jsGet, JSVal.truthy, Option.orElse]
  | some v =>
    rw [ht2] at h
    have hv : v.truthy = true := h
    simp [jsGet, Option.orElse, hv]

/-- C8 witness: the composable case at a concrete input whose dominating
payload carries a truthy token. -/
theorem clientUser_patch_composition_witness :
    (tokenComposable { email := some (.jstr "e"), token := some (.jstr "t2") } = true)
  ∧ (((ClientUser._patch { id := "0" } (.jstr "a") { verified := some (.jbool true) }).user._patch
        (ClientUser._patch { id := "0" } (.jstr "a") { verified := some (.jbool true) }).token
        { email := some (.jstr "e"), token := some (.jstr "t2") })
      = ClientUser._patch { id := "0" } (.jstr "a")
          (PatchPayload.combine { verified := some (.jbool true) }
            { email := some (.jstr "e"), token := some (.jstr "t2") })) :=
  ⟨by decide,
   (clientUser_patch_composition { id := "0" } (.jstr "a") { verified := some (.jbool true) }
      { email := some (.jstr "e"), token := some (.jstr "t2") }).2 (by decide)⟩

/-- C8 counterexample: the law fails for the token side effect when `P2`
carries a present falsy token — sequential merging keeps `P1`'s truthy
token, while the combined payload's falsy token is dropped and the
original credential survives. -/
theorem clientUser_patch_composition_cex :
    ((ClientUser._patch
        (ClientUser._patch { id := "0" } (.jstr "a") { token := some (.jstr "t1") }).user
        (ClientUser._patch { id := "0" } (.jstr "a") { token := some (.jstr "t1") }).token
        { token := some .null }).token = .jstr "t1")
  ∧ ((ClientUser._patch { id := "0" } (.jstr "a")
        (PatchPayload.combine { token := some (.jstr "t1") } { token := some .null })).token
      = .jstr "a")
  ∧ (JSVal.jstr "t1" ≠ JSVal.jstr "a") := by decide

/-- C5: the READY handler patches the existing client user or creates one
from the payload and caches it under its id; every guild of the payload
is inserted tagged with the owning shard's identifier, every private
channel is inserted, and `shard.checkReady()` is the final effect,
occurring exactly once per processed READY event (level-triggered). -/
theorem readyHandle_spec (hasUser : Bool) (data : ReadyData) (shard : ShardHandle) :
    ((readyHandle true data shard).take 1 = [.patchUser data.fields])
  ∧ ((readyHandle false data shard).take 2 =
      [.createUser (mkClientUser data),
       .cacheUser (mkClientUser data).id (mkClientUser data)])
  ∧ ((readyHandle hasUser data shard).filterMap ReadyEffect.guildOf
      = data.guilds.map fun g => { g with shardID := some shard.id })
  ∧ ((readyHandle hasUser data shard).filterMap ReadyEffect.channelOf
      = data.private_channels)
  ∧ ((readyHandle hasUser data shard).getLast? = some .checkReady)
  ∧ ((readyHandle hasUser data shard).countP ReadyEffect.isCheckReady = 1) := by
  refine ⟨rfl, rfl, ?_, ?_, ?_, ?_⟩
  · cases hasUser <;>
      simp [readyHandle, List.filterMap_append, List.filterMap_cons,
        filterMap_guildOf_addGuilds, filterMap_guildOf_addChannels, ReadyEffect.guildOf,
        -List.filterMap_map]
  · cases hasUser <;>
      simp [readyHandle, List.filterMap_append, List.filterMap_cons,
        filterMap_channelOf_addGuilds, filterMap_channelOf_addChannels, ReadyEffect.channelOf,
        -List.filterMap_map]
  · unfold readyHandle
    exact List.getLast?_concat _
  · cases hasUser <;>
      simp [readyHandle, List.countP_append, List.countP_cons,
        countP_isCheckReady_addGuilds, countP_isCheckReady_addChannels,
        ReadyEffect.isCheckReady, -List.countP_map]

/-- C7: the unconditional-notify settings handler emits exactly one
`userSettingsUpdate` notification per invocation, carrying the payload,
and returns the result descriptor with that payload; dispatching N
events yields exactly N emissions in dispatch order, including two
back-to-back identical payloads yielding two emissions. -/
theorem userSettingsUpdate_emissions (ps : List JSVal) (bus : List Emission) (p : JSVal) :
    (dispatchSettings bus ps
      = bus ++ ps.map fun q => { name := USER_SETTINGS_UPDATE, payload := q })
  ∧ ((dispatchSettings [] ps).length = ps.length)
  ∧ ((UserSettingsUpdateAction.handle bus p).2 = { settings := p })
  ∧ ((UserSettingsUpdateAction.handle bus p).1
      = bus ++ [{ name := USER_SETTINGS_UPDATE, payload := p }])
  ∧ (dispatchSettings [] [p, p]
      = [{ name := USER_SETTINGS_UPDATE, payload := p },
         { name := USER_SETTINGS_UPDATE, payload := p }]) := by
  refine ⟨dispatchSettings_eq ps bus, ?_, rfl, rfl, ?_⟩
  · rw [dispatchSettings_eq]
    simp
  · rw [dispatchSettings_eq]
    simp
